import Mathlib

/-!
Verification development for the Autonomous-ML-Agent backend.

This file gives a shallow embedding, in Lean 4, of the parts of the
repository that the frozen claims talk about:

* `backend/app/utils/code_validator.py` — the `CodeValidator` class
  (`validate_sklearn_syntax`, `ensure_cleaned_df_variable`,
  `validate_python_syntax`, `validate_and_fix_code`);
* `backend/app/services/e2b_service.py` — harness assembly and the
  success/failure shape of `execute_preprocessing_code` and
  `execute_training_code`;
* `backend/app/routes.py` — the outcome classification performed by the
  `execute_preprocessing` endpoint;
* `backend/app/services/local_storage_service.py` — storage-key validation
  in `download_file` / `delete_file`, and the similar-file fallback of
  `download_file`.

Python strings are modelled as Lean `String`s, with all text processing
done by executable functions over `List Char` (the core library string
functions do not reduce inside the kernel, so the file carries its own
character-list toolkit).  The Python parser (`ast.parse`) and the remote
services (E2B sandbox, filesystem) are modelled as explicit oracles
passed to the embedded functions: the embedded control flow is translated
from the source, while the oracle supplies the outcome of each external
call.
-/

/-! ## Character-list toolkit -/

/-- Newline character. -/
def nlChar : Char := Char.ofNat 10

/-- Single-quote character. -/
def squote : Char := Char.ofNat 39

/-- Double-quote character. -/
def dquote : Char := Char.ofNat 34

/-- Close-parenthesis character. -/
def cparen : Char := Char.ofNat 41

/-- Boolean test: `q` is a prefix of `t` (character lists). -/
def startsB : List Char → List Char → Bool
  | [], _ => true
  | _ :: _, [] => false
  | a :: q, b :: t => a == b && startsB q t

/-- Boolean test: the pattern `q` occurs as a contiguous substring of `l`
(Python `q in l`). -/
def containsB (l q : List Char) : Bool :=
  startsB q l ||
    match l with
    | [] => false
    | _ :: cs => containsB cs q

/-- String-level substring test, Python `needle in hay`. -/
def containsStr (hay needle : String) : Bool :=
  containsB hay.data needle.data

/-- String-level prefix test, Python `s.startswith(pre)`. -/
def strStarts (s pre : String) : Bool :=
  startsB pre.data s.data

/-- String-level suffix test, Python `s.endswith(suf)`. -/
def strEnds (s suf : String) : Bool :=
  startsB suf.data.reverse s.data.reverse

/-- Python string truthiness test for emptiness. -/
def sEmpty (s : String) : Bool :=
  s.data.isEmpty

/-- Split a character list at every occurrence of the character `sep`
(Python `s.split(sep)` for a one-character separator). -/
def splitCh (sep : Char) (l : List Char) : List (List Char) :=
  l.foldr
    (fun c acc =>
      if c == sep then [] :: acc
      else
        match acc with
        | h :: t => (c :: h) :: t
        | [] => [[c]])
    [[]]

/-- Join character lists with the separator `sep` between them
(Python `sep.join(parts)` for a one-character separator). -/
def joinCh (sep : Char) : List (List Char) → List Char
  | [] => []
  | [l] => l
  | l :: ls => l ++ sep :: joinCh sep ls

/-- Whitespace test used by Python `str.strip` / `str.lstrip` on the
characters that can occur inside a single line. -/
def isWs (c : Char) : Bool :=
  c == ' ' || c == Char.ofNat 9 || c == Char.ofNat 13 || c == nlChar

/-- Python `line.strip()`. -/
def trimL (l : List Char) : List Char :=
  ((l.dropWhile isWs).reverse.dropWhile isWs).reverse

/-- Number of leading whitespace characters,
Python `len(line) - len(line.lstrip())`. -/
def indentOf (l : List Char) : Nat :=
  (l.takeWhile isWs).length

/-- A run of `n` space characters, Python `' ' * n`. -/
def spacesL (n : Nat) : List Char :=
  List.replicate n ' '

/-! ## Model of `CodeValidator.validate_sklearn_syntax`

The source checks `re.search(r'OneHotEncoder\([^)]*sparse=False[^)]*\)', code)`
and, when it matches, substitutes every occurrence of `sparse=False` by
`sparse_output=False`.  The regex search is embedded as an executable
scanner `searchOHE` over character lists: a match exists exactly when some
position starts with `OneHotEncoder(`, the text `sparse=False` occurs
after it before any close parenthesis, and a close parenthesis occurs
after that. -/

/-- The deprecated spelling searched for, `sparse=False`. -/
def spPat : List Char := "sparse=False".data

/-- The replacement spelling, `sparse_output=False`. -/
def spRep : List Char := "sparse_output=False".data

/-- The literal head of the regex, `OneHotEncoder(`. -/
def ohePre : List Char := "OneHotEncoder(".data

/-- Scan for an occurrence of `spPat` that appears before any close
parenthesis; on success return the text after the occurrence. -/
def scanPat : List Char → Option (List Char)
  | [] => none
  | c :: cs =>
    if startsB spPat (c :: cs) then some ((c :: cs).drop 12)
    else if c == cparen then none
    else scanPat cs

/-- Does some close parenthesis occur in the list (`[^)]*\)` succeeds)? -/
def hasCloseP : List Char → Bool
  | [] => false
  | c :: cs => c == cparen || hasCloseP cs

/-- Does a match of the regex `OneHotEncoder\([^)]*sparse=False[^)]*\)`
start at the head of `l`? -/
def matchOHE (l : List Char) : Bool :=
  startsB ohePre l &&
    match scanPat (l.drop 14) with
    | some r => hasCloseP r
    | none => false

/-- Does the regex `OneHotEncoder\([^)]*sparse=False[^)]*\)` match anywhere
in `l` (Python `re.search`)? -/
def searchOHE : List Char → Bool
  | [] => false
  | c :: cs => matchOHE (c :: cs) || searchOHE cs

/-- Replace every occurrence of `sparse=False` by `sparse_output=False`,
scanning left to right (Python `re.sub(r'sparse=False', 'sparse_output=False', s)`). -/
def replSp : List Char → List Char
  | [] => []
  | c :: cs =>
    if startsB spPat (c :: cs) then spRep ++ replSp (cs.drop 11)
    else c :: replSp cs
termination_by l => l.length
decreasing_by
  · simp only [List.length_cons]
    have h := List.length_drop 11 cs
    omega
  · simp

/-- Result shape shared by `validate_sklearn_syntax` and
`validate_python_syntax` in the source: the `valid` flag, the recorded
issues and fixes, and the (possibly rewritten) code. -/
structure CheckResult where
  valid : Bool
  issues : List String
  fixes : List String
  fixed_code : String
deriving DecidableEq, Repr

/-- Model of `CodeValidator.validate_sklearn_syntax`. -/
def sklearnCheck (code : String) : CheckResult :=
  let hasPat := searchOHE code.data
  let fixedCode := if hasPat then String.mk (replSp code.data) else code
  let issues1 :=
    if hasPat then ["Deprecated \x27sparse=False\x27 parameter in OneHotEncoder"] else []
  let fixes :=
    if hasPat then ["Replaced \x27sparse=False\x27 with \x27sparse_output=False\x27"] else []
  let issues2 :=
    (if containsStr code "import pandas as pd" then []
     else ["Missing required import: import pandas as pd"]) ++
    (if containsStr code "import numpy as np" then []
     else ["Missing required import: import numpy as np"])
  let issues3 :=
    if containsStr code "cleaned_df" || containsStr code "cleaned_data" then []
    else ["No \x27cleaned_df\x27 or \x27cleaned_data\x27 variable found"]
  let issues4 :=
    if containsStr code "to_csv(" then []
    else ["No CSV saving operation found"]
  let allIssues := issues1 ++ issues2 ++ issues3 ++ issues4
  ⟨allIssues.isEmpty, allIssues, fixes, fixedCode⟩

/-! ## Model of `CodeValidator.ensure_cleaned_df_variable` -/

/-- The variable-alias table of `ensure_cleaned_df_variable`. -/
def varMappings : List (String × String) :=
  [("processed_data", "cleaned_df = processed_data"),
   ("cleaned_data", "cleaned_df = cleaned_data"),
   ("final_data", "cleaned_df = final_data"),
   ("X_processed", "cleaned_df = X_processed"),
   ("df_processed", "cleaned_df = df_processed")]

/-- The text appended in front of the alias assignment. -/
def ensureComment : String :=
  "\n\n# Ensure cleaned_df is available for saving\n"

/-- Model of `CodeValidator.ensure_cleaned_df_variable`: if the code does
not mention `cleaned_df` but mentions one of the known result-variable
names, append an alias assignment for the first such name. -/
def ensureCleanedDf (code : String) : String :=
  if containsStr code "cleaned_df" then code
  else
    match varMappings.find? (fun p => containsStr code p.1) with
    | some p => code ++ (ensureComment ++ p.2)
    | none => code

/-! ## Model of `CodeValidator.validate_python_syntax`

The Python parser is an oracle `parse : String → PyParse`: the embedded
function only branches on its outcome, exactly as the source branches on
`ast.parse` succeeding, raising `SyntaxError`, or raising any other
exception. -/

/-- Outcome of the Python parser oracle: success, a `SyntaxError` with a
line number and message, or any other exception. -/
inductive PyParse where
  | ok : PyParse
  | synErr : Nat → String → PyParse
  | exn : String → PyParse
deriving DecidableEq, Repr

/-- The `SyntaxError` message fragment that triggers the try/except
repair. -/
def exceptHint : String := "expected \x27except\x27 or \x27finally\x27 block"

/-- One step of the line loop inside the try/except repair.  The state is
the accumulated output lines, the `in_try_block` flag and the recorded
indent level. -/
def repairStep (st : List (List Char) × Bool × Nat) (line : List Char) :
    List (List Char) × Bool × Nat :=
  let (acc, inTry, ind) := st
  let stripped := trimL line
  if startsB "try:".data stripped then
    (acc ++ [line], true, indentOf line)
  else if inTry && !stripped.isEmpty && !startsB (spacesL (ind + 4)) line &&
      !startsB "except".data stripped && !startsB "finally".data stripped then
    (acc ++ [spacesL ind ++ "except Exception as e:".data,
             spacesL (ind + 4) ++ "print(f\"Error: \x7be\x7d\")".data,
             [], line],
     false, ind)
  else
    (acc ++ [line], inTry, ind)

/-- Model of the try/except repair inside `validate_python_syntax`: walk
the lines, and insert a generic `except` handler where an open `try:`
block ends without one (also at end of input). -/
def repairTryExcept (code : String) : String :=
  let lines := splitCh nlChar code.data
  let (acc, inTry, ind) := lines.foldl repairStep ([], false, 0)
  let finalLines :=
    if inTry then
      acc ++ [[], spacesL ind ++ "except Exception as e:".data,
              spacesL (ind + 4) ++ "print(f\"Error: \x7be\x7d\")".data]
    else acc
  String.mk (joinCh nlChar finalLines)

/-- Model of `CodeValidator.validate_python_syntax` over the parser
oracle. -/
def pySynCheck (parse : String → PyParse) (code : String) : CheckResult :=
  match parse code with
  | PyParse.ok => ⟨true, [], [], code⟩
  | PyParse.synErr ln msg =>
    let issue := "Syntax Error at line " ++ toString ln ++ ": " ++ msg
    if containsStr msg exceptHint then
      let fixed := repairTryExcept code
      let fixes := ["Added missing except block to incomplete try statement"]
      match parse fixed with
      | PyParse.ok => ⟨true, [], fixes, fixed⟩
      | _ => ⟨false, [issue], fixes, code⟩
    else ⟨false, [issue], [], code⟩
  | PyParse.exn m => ⟨false, ["Code validation error: " ++ m], [], code⟩

/-! ## Model of `CodeValidator.validate_and_fix_code` -/

/-- Result shape of `validate_and_fix_code`. -/
structure VafResult where
  valid : Bool
  issues : List String
  fixes_applied : List String
  original_code : String
  fixed_code : String
  validation_passed : Bool
deriving DecidableEq, Repr

/-- Steps 2 and 3 of `validate_and_fix_code`: the sklearn convention fixes
followed by `ensure_cleaned_df_variable`.  They run only when the syntax
step reported valid code. -/
def applyConventionFixes (s : String) : String :=
  ensureCleanedDf (sklearnCheck s).fixed_code

/-- Model of `CodeValidator.validate_and_fix_code`: syntax check/repair
first; convention checks and the `cleaned_df` aliasing only when syntax is
valid; otherwise the original code is returned with the syntax issues. -/
def validateAndFix (parse : String → PyParse) (code : String) : VafResult :=
  let sr := pySynCheck parse code
  if sr.valid then
    let sk := sklearnCheck sr.fixed_code
    let fixed := ensureCleanedDf sk.fixed_code
    { valid := (sr.issues ++ sk.issues).isEmpty,
      issues := sr.issues ++ sk.issues,
      fixes_applied := sr.fixes ++ sk.fixes,
      original_code := code,
      fixed_code := fixed,
      validation_passed := true }
  else
    { valid := sr.issues.isEmpty,
      issues := sr.issues,
      fixes_applied := sr.fixes,
      original_code := code,
      fixed_code := sr.fixed_code,
      validation_passed := true }

/-! ## Model of harness assembly in `E2BService`

`execute_preprocessing_code` first rewrites the user code with
`re.sub(r"['\"](?:uploads/)?[^'\"]*\.csv['\"]", "'uploaded_data.csv'", code)`
and then splices the result between a fixed preamble and a fixed epilogue
inside an f-string.  `execute_training_code` splices the user code without
any rewriting.

A match of the file-path regex starts at a quote character; since the
middle class excludes both quote characters, the closing quote of a match
is necessarily the first quote after the opening one, and the optional
`uploads/` group is absorbed by the middle class.  The replacement scanner
below implements exactly that: at a quote, look for the next quote; if the
text between them ends in `.csv`, the whole quoted literal is replaced and
scanning resumes after the closing quote.  The recursion is driven by a
fuel argument initialised to the length of the input, which is sufficient
because every step strictly shrinks the remaining list. -/

/-- Quote test for the regex character class `['\"]`. -/
def isQuoteC (c : Char) : Bool :=
  c == squote || c == dquote

/-- Split a list at its first quote character: return the part before the
quote, the quote, and the part after it. -/
def findQSplit : List Char → Option (List Char × Char × List Char)
  | [] => none
  | c :: cs =>
    if isQuoteC c then some ([], c, cs)
    else (findQSplit cs).map (fun t => (c :: t.1, t.2.1, t.2.2))

/-- Does the quoted middle end in `.csv`? -/
def endsCsvB (mid : List Char) : Bool :=
  startsB ".csv".data.reverse mid.reverse

/-- The replacement text of the substitution, `'uploaded_data.csv'`. -/
def csvRepl : List Char := "\x27uploaded_data.csv\x27".data

/-- Fuel-driven scanner performing the file-path substitution. -/
def replCsvGo : Nat → List Char → List Char
  | 0, l => l
  | _ + 1, [] => []
  | fuel + 1, c :: cs =>
    if isQuoteC c then
      match findQSplit cs with
      | some (mid, _, rest) =>
        if endsCsvB mid then csvRepl ++ replCsvGo fuel rest
        else c :: replCsvGo fuel cs
      | none => c :: replCsvGo fuel cs
    else c :: replCsvGo fuel cs

/-- The file-path substitution applied by `execute_preprocessing_code`
before harness assembly. -/
def replCsvLits (s : String) : String :=
  String.mk (replCsvGo s.data.length s.data)

/-- Fuel-driven scanner deciding whether the file-path regex matches
anywhere (same traversal as `replCsvGo`). -/
def hasCsvGo : Nat → List Char → Bool
  | 0, _ => false
  | _ + 1, [] => false
  | fuel + 1, c :: cs =>
    if isQuoteC c then
      match findQSplit cs with
      | some (mid, _, _) =>
        if endsCsvB mid then true
        else hasCsvGo fuel cs
      | none => hasCsvGo fuel cs
    else hasCsvGo fuel cs

/-- Does the code contain a quoted `.csv` path literal (a match of the
substitution regex)? -/
def hasCsvLit (s : String) : Bool :=
  hasCsvGo s.data.length s.data

/-- The fixed preamble of the preprocessing harness (`full_code` up to the
splice point in `execute_preprocessing_code`). -/
def prePreamble : String :=
  "\nimport pandas as pd\nimport numpy as np\nfrom sklearn.preprocessing import StandardScaler, LabelEncoder, OneHotEncoder\nfrom sklearn.compose import ColumnTransformer\nfrom sklearn.impute import SimpleImputer\nfrom sklearn.pipeline import Pipeline\n\n# Load the uploaded data\ndf = pd.read_csv(\x27uploaded_data.csv\x27)\nprint(f\"Data loaded. Shape: \x7bdf.shape\x7d\")\n\n# Execute user\x27s preprocessing code\n"

/-- The fixed epilogue of the preprocessing harness (`full_code` after the
splice point). -/
def preEpilogue : String :=
  "\n\n# Save the cleaned data\nif \x27cleaned_df\x27 in locals():\n    print(f\"Cleaned data shape: \x7bcleaned_df.shape\x7d\")\n    cleaned_df.to_csv(\x27cleaned_data.csv\x27, index=False)\n    print(\"Data saved to cleaned_data.csv\")\nelse:\n    print(\"Warning: cleaned_df not found\")\n\nprint(\"Preprocessing completed\")\n"

/-- The fixed preamble of the training harness
(`full_code` in `execute_training_code`). -/
def trainPreamble : String :=
  "\nimport pandas as pd\nimport numpy as np\nimport pickle\nimport json\nfrom sklearn.model_selection import train_test_split, cross_val_score\nfrom sklearn.preprocessing import StandardScaler, LabelEncoder\nfrom sklearn.ensemble import RandomForestClassifier, RandomForestRegressor\nfrom sklearn.tree import DecisionTreeClassifier, DecisionTreeRegressor\nfrom sklearn.naive_bayes import GaussianNB\nfrom sklearn.linear_model import LinearRegression, LogisticRegression\nfrom xgboost import XGBClassifier, XGBRegressor\nfrom sklearn.metrics import accuracy_score, precision_score, recall_score, f1_score\nfrom sklearn.metrics import mean_squared_error, r2_score, mean_absolute_error\nimport joblib\nimport json\n\n# Load the cleaned data\ndf = pd.read_csv(\x27cleaned_data.csv\x27)\n\n# Execute user\x27s training code\n"

/-- The fixed epilogue of the training harness. -/
def trainEpilogue : String :=
  "\n\n# Save results if available\nif \x27results\x27 in locals() or \x27results\x27 in globals():\n    with open(\x27model_results.json\x27, \x27w\x27) as f:\n        json.dump(results, f, indent=2, default=str)\n    print(\"✅ Model results saved successfully\")\n"

/-- Harness assembled by `execute_preprocessing_code`: fixed preamble, the
path-substituted user code, fixed epilogue. -/
def assemblePre (code : String) : String :=
  prePreamble ++ replCsvLits code ++ preEpilogue

/-- Harness assembled by `execute_training_code`: fixed preamble, the user
code spliced unchanged, fixed epilogue. -/
def assembleTrain (code : String) : String :=
  trainPreamble ++ code ++ trainEpilogue

/-! ## Model of `execute_preprocessing_code` and `execute_training_code`

The remote sandbox is an oracle (a "world") recording the outcome of each
external call the method makes: sandbox creation, file upload, code
execution, and the best-effort reads of output artifacts.  The embedded
functions reproduce the try/except control flow of the source over these
outcomes.  The attribute-probing extraction of stdout/stderr from the
heterogeneous response object is collapsed into the oracle: the world
directly supplies the extracted text. -/

/-- External outcomes seen by one call of `execute_preprocessing_code`.
A `some` message in an error slot means the corresponding call raised. -/
structure PreWorld where
  createErr : Option String
  uploadErr : Option String
  runErr : Option String
  runStdout : String
  runStderr : String
  readCleaned : Option String
  listedFiles : List String
deriving Repr

/-- The result dictionary built by `execute_preprocessing_code`.  The
failure dictionaries of the source carry no artifact keys; the consumers
read them with `.get(...)`, which yields falsy defaults, modelled here as
`false` / `none` / `[]`. -/
structure PreResult where
  success : Bool
  error : Option String
  stdout : String
  stderr : String
  cleanedExists : Bool
  cleanedContent : Option String
  filesCreated : List String
deriving DecidableEq, Repr

/-- Failure dictionary of the inner `except` block of
`execute_preprocessing_code`. -/
def preFailure (m : String) : PreResult :=
  { success := false, error := some m, stdout := "", stderr := "",
    cleanedExists := false, cleanedContent := none, filesCreated := [] }

/-- Model of `E2BService.execute_preprocessing_code`. -/
def executePre (code : String) (w : PreWorld) : PreResult :=
  match w.createErr with
  | some m => preFailure ("Sandbox initialization failed: " ++ m)
  | none =>
    match w.uploadErr with
    | some m => preFailure m
    | none =>
      match w.runErr with
      | some m => preFailure m
      | none =>
        let _harness := assemblePre code
        { success := true, error := none,
          stdout := w.runStdout, stderr := w.runStderr,
          cleanedExists := w.readCleaned.isSome,
          cleanedContent :=
            match w.readCleaned with
            | some s => if sEmpty s then none else some s
            | none => none,
          filesCreated := w.listedFiles }

/-- Parsed content of `model_results.json`: model name mapped to a metric
dictionary.  The metric values are opaque to every claim; they are
modelled as integers. -/
def TrainJson := List (String × List (String × Int))

/-- One entry of `parsed_model_results`. -/
structure TrainEntry where
  name : String
  accuracy : Int
  precisionV : Int
  recallV : Int
  f1V : Int
  rocAuc : Int
  trainingTime : Int
deriving DecidableEq, Repr

/-- Python `model_name.replace('_', ' ')`. -/
def underToSpace (s : String) : String :=
  String.mk (s.data.map (fun c => if c == '_' then ' ' else c))

/-- Python `metrics.get(key, 0)` over the metric dictionary. -/
def getMetric (m : List (String × Int)) (k : String) : Int :=
  match m.find? (fun p => p.1 == k) with
  | some p => p.2
  | none => 0

/-- Conversion of one JSON entry into a `parsed_model_results` entry. -/
def convEntry (p : String × List (String × Int)) : TrainEntry :=
  { name := underToSpace p.1,
    accuracy := getMetric p.2 "accuracy",
    precisionV := getMetric p.2 "precision",
    recallV := getMetric p.2 "recall",
    f1V := getMetric p.2 "f1_score",
    rocAuc := getMetric p.2 "roc_auc",
    trainingTime := 0 }

/-- External outcomes seen by one call of `execute_training_code`.
`resultsStorage` / `resultsRoot` are the parsed contents of
`storage/models/model_results.json` and `model_results.json`, with `none`
covering both a missing file and unparseable content (either raises and is
caught).  `listedModelFiles = none` models the file-listing helper
raising, which the source swallows leaving `model_files = []`. -/
structure TrainWorld where
  createErr : Option String
  uploadErr : Option String
  installErr : Option String
  runErr : Option String
  runStdout : String
  runStderr : String
  listedModelFiles : Option (List String)
  resultsStorage : Option TrainJson
  resultsRoot : Option TrainJson

/-- The result dictionary built by `execute_training_code` (same
convention for absent keys as `PreResult`). -/
structure TrainResult where
  success : Bool
  error : Option String
  stdout : String
  stderr : String
  modelFiles : List String
  resultsFile : Option TrainJson
  parsedResults : List TrainEntry
  modelsTrained : Nat

/-- Failure dictionary of the except blocks of `execute_training_code`. -/
def trainFailure (m : String) : TrainResult :=
  { success := false, error := some m, stdout := "", stderr := "",
    modelFiles := [], resultsFile := none, parsedResults := [],
    modelsTrained := 0 }

/-- Model of `E2BService.execute_training_code`. -/
def executeTrain (code : String) (w : TrainWorld) : TrainResult :=
  match w.createErr with
  | some m => trainFailure ("Training sandbox failed: " ++ m)
  | none =>
    match w.uploadErr with
    | some m => trainFailure m
    | none =>
      match w.installErr with
      | some m => trainFailure m
      | none =>
        match w.runErr with
        | some m => trainFailure m
        | none =>
          let _harness := assembleTrain code
          let modelFiles := w.listedModelFiles.getD []
          let rf :=
            match w.resultsStorage with
            | some j => some j
            | none => w.resultsRoot
          let parsed :=
            match rf with
            | some j => j.map convEntry
            | none => []
          { success := true, error := none,
            stdout := w.runStdout, stderr := w.runStderr,
            modelFiles := modelFiles,
            resultsFile := rf,
            parsedResults := parsed,
            modelsTrained :=
              if parsed.isEmpty then modelFiles.length else parsed.length }

/-! ## Model of the outcome classification in `routes.execute_preprocessing`

The endpoint classifies a completed sandbox call into one of the strings
`'success'`, `'partial_success'`, `'failed_with_errors'`; a sandbox call
that did not complete takes the error branch of the endpoint, the outcome
the specification names `failed`.  The constructor `noArtifact` models the
source string value `'partial_success'`, and `withErrors` models
`'failed_with_errors'`.  Persistence of the cleaned artifact to the blob
store is modelled as succeeding. -/

/-- The four terminal outcomes of a workflow invocation. -/
inductive RunStatus where
  | success
  | noArtifact
  | withErrors
  | failed
deriving DecidableEq, Repr

/-- The `has_errors` test of the endpoint: the captured standard error is
non-empty and contains one of the recognized marker substrings. -/
def hasErrMarker (stderr : String) : Bool :=
  if sEmpty stderr then false
  else containsStr stderr "Error" || containsStr stderr "Exception"

/-- The artifact test of the endpoint,
`execution_result.get('cleaned_data_exists') and execution_result.get('cleaned_data_content')`:
the exists flag is set and the content is a non-empty string. -/
def artifactStored (r : PreResult) : Bool :=
  r.cleanedExists &&
    match r.cleanedContent with
    | some s => !sEmpty s
    | none => false

/-- Model of the classification in `routes.execute_preprocessing`. -/
def classifyPre (r : PreResult) : RunStatus :=
  if r.success then
    if artifactStored r then RunStatus.success
    else if hasErrMarker r.stderr then RunStatus.withErrors
    else RunStatus.noArtifact
  else RunStatus.failed

/-! ## Model of `LocalStorageService.download_file` / `delete_file`

The filesystem is an oracle; each function returns its outcome together
with the list of filesystem operations it performed, so that "rejected
before any filesystem operation" is expressible as an empty operation
list.  The storage root is modelled by the fixed relative path
`storage` (the source uses `os.path.join(os.getcwd(), 'storage')`). -/

/-- A filesystem operation performed by the storage service. -/
inductive FsOp where
  | checkExists (path : String)
  | listDir (path : String)
  | removeFile (path : String)
deriving DecidableEq, Repr

/-- Filesystem oracle for the storage service. -/
structure StoreFs where
  pathExists : String → Bool
  uploadsDirExists : Bool
  uploadsListing : List String

/-- The storage root directory. -/
def storageRoot : String := "storage"

/-- Python `os.path.basename`: the part after the last `/`. -/
def baseName (s : String) : String :=
  String.mk ((splitCh '/' s.data).getLastD [])

/-- The not-found error raised at the end of the fallback search. -/
def notFoundMsg (p : String) : String :=
  "Failed to access file: File not found at path: " ++ p

/-- Model of `LocalStorageService.download_file`: key validation, an
existence check, and the similar-file fallback over the uploads listing.
Returns the outcome and the filesystem operations performed. -/
def downloadFile (fs : StoreFs) (key : String) :
    Except String String × List FsOp :=
  if sEmpty key || containsStr key ".." || strStarts key "/" then
    (Except.error "Failed to access file: Invalid storage key format", [])
  else if !strStarts key "uploads/" && !strStarts key "processed/" then
    (Except.error "Failed to access file: Access denied: Invalid file path", [])
  else
    let p := storageRoot ++ "/" ++ key
    if fs.pathExists p then (Except.ok p, [FsOp.checkExists p])
    else
      let uploadDir := storageRoot ++ "/uploads"
      if fs.uploadsDirExists then
        let base := baseName key
        let ops := [FsOp.checkExists p, FsOp.checkExists uploadDir,
                    FsOp.listDir uploadDir]
        if containsStr base "_" then
          let parts := (splitCh '_' base.data).map String.mk
          if parts.length ≥ 4 then
            let orig := String.mk (joinCh '_' ((splitCh '_' base.data).drop 3))
            match fs.uploadsListing.find? (fun f => strEnds f orig) with
            | some f => (Except.ok (uploadDir ++ "/" ++ f), ops)
            | none => (Except.error (notFoundMsg p), ops)
          else (Except.error (notFoundMsg p), ops)
        else (Except.error (notFoundMsg p), ops)
      else
        (Except.error (notFoundMsg p),
         [FsOp.checkExists p, FsOp.checkExists uploadDir])

/-- Model of `LocalStorageService.delete_file`: key validation, an
existence check, and removal when present (a missing file is only logged,
not an error). -/
def deleteFile (fs : StoreFs) (key : String) :
    Except String Unit × List FsOp :=
  if sEmpty key || containsStr key ".." || strStarts key "/" then
    (Except.error "Failed to delete file: Invalid storage key format", [])
  else if !strStarts key "uploads/" && !strStarts key "processed/" then
    (Except.error "Failed to delete file: Access denied: Cannot delete system files", [])
  else
    let p := storageRoot ++ "/" ++ key
    if fs.pathExists p then (Except.ok (), [FsOp.checkExists p, FsOp.removeFile p])
    else (Except.ok (), [FsOp.checkExists p])

/-! ## Helper definitions for the proofs

`divergeB q t` holds when `q` and `t` disagree at some position covered by
both, in which case `q` can never be a prefix of `t ++ z` for any `z`;
`noTailMatch w q` holds when that is the case for every suffix of `w`, in
which case an occurrence of `q` in `w ++ z` must lie entirely inside `z`. -/

/-- Do `q` and `t` disagree at some position covered by both? -/
def divergeB : List Char → List Char → Bool
  | a :: q, b :: t => if a == b then divergeB q t else true
  | _, _ => false

/-- Does every suffix of `w` diverge from `q`? -/
def noTailMatch : List Char → List Char → Bool
  | [], _ => true
  | c :: w, q => divergeB q (c :: w) && noTailMatch w q

/-! ## Concrete oracles and worlds used by the witnesses -/

/-- Parser oracle accepting every string. -/
def okP : String → PyParse := fun _ => PyParse.ok

/-- Parser oracle reporting an unrepairable syntax error on every
string. -/
def alwaysBadP : String → PyParse := fun _ => PyParse.synErr 1 "invalid syntax"

/-- A code string with an open `try:` block and no handler. -/
def brokenTry : String := "try:\n    x = 1"

/-- Parser oracle behaving like the Python parser on `brokenTry`: the
unrepaired string fails with the missing-handler message, everything else
parses. -/
def repairableP : String → PyParse :=
  fun s => if s == brokenTry then PyParse.synErr 2 exceptHint else PyParse.ok

/-- Already-clean preprocessing code: valid syntax, required imports,
`cleaned_df` and a save call present, no deprecated spelling. -/
def cleanCode : String :=
  "import pandas as pd\nimport numpy as np\ncleaned_df = df.dropna()\ncleaned_df.to_csv(\x27x.csv\x27)"

/-- Syntactically valid code mentioning `cleaned_data` but not
`cleaned_df`. -/
def aliasCode : String := "x = cleaned_data"

/-- Sandbox world: creation fails. -/
def wCreateFail : PreWorld :=
  { createErr := some "connection refused", uploadErr := none, runErr := none,
    runStdout := "", runStderr := "", readCleaned := none, listedFiles := [] }

/-- Sandbox world: everything completes, the user code raised, and no
output file was produced. -/
def wNoFile : PreWorld :=
  { createErr := none, uploadErr := none, runErr := none,
    runStdout := "Data loaded. Shape: (10, 3)",
    runStderr := "NameError: name \x27cleaned_df\x27 is not defined",
    readCleaned := none, listedFiles := [] }

/-- Sandbox world: everything completes and a non-empty cleaned dataset is
read back. -/
def wGood : PreWorld :=
  { createErr := none, uploadErr := none, runErr := none,
    runStdout := "Data saved to cleaned_data.csv", runStderr := "",
    readCleaned := some "a,b\n1,2", listedFiles := ["cleaned_data.csv"] }

/-- Sandbox world: everything completes, the harness reported an error on
standard error, and the cleaned dataset file exists but is empty. -/
def wEmptyArtifact : PreWorld :=
  { createErr := none, uploadErr := none, runErr := none,
    runStdout := "Data loaded. Shape: (5, 2)",
    runStderr := "NameError: name \x27foo\x27 is not defined",
    readCleaned := some "", listedFiles := ["cleaned_data.csv"] }

/-- Training world: sandbox creation fails. -/
def twCreateFail : TrainWorld :=
  { createErr := some "connection refused", uploadErr := none,
    installErr := none, runErr := none, runStdout := "", runStderr := "",
    listedModelFiles := none, resultsStorage := none, resultsRoot := none }

/-- Filesystem oracle on which every path exists. -/
def fsAny : StoreFs :=
  { pathExists := fun _ => true, uploadsDirExists := true, uploadsListing := [] }

/-- Filesystem oracle on which no path exists but the uploads directory
holds one file for a different upload of `churn.csv`. -/
def fsSimilar : StoreFs :=
  { pathExists := fun _ => false, uploadsDirExists := true,
    uploadsListing := ["20250915_045048_zzzz9999_churn.csv"] }

/-- A storage key whose file is absent from `fsSimilar`. -/
def missingKey : String := "uploads/20250101_120000_abcd1234_churn.csv"

/-- A user code string containing a quoted CSV path literal. -/
def csvCode : String := "df = pd.read_csv(\x27uploads/churn.csv\x27)"

/-- A user code string containing no quoted CSV path literal. -/
def plainCode : String := "cleaned_df = df.dropna()"

/-! ## Toolkit lemmas -/

theorem mkData (l : List Char) : (String.mk l).data = l := rfl

theorem dataMk (s : String) : String.mk s.data = s := by
  cases s
  rfl

theorem sdata_append (a b : String) : (a ++ b).data = a.data ++ b.data := by
  cases a
  cases b
  rfl

theorem startsB_length_le : ∀ {q t : List Char}, startsB q t = true → q.length ≤ t.length := by
  intro q
  induction q with
  | nil => intro t _; simp
  | cons a q ih =>
    intro t h
    cases t with
    | nil => simp [startsB] at h
    | cons b t =>
      have h2 : (a == b && startsB q t) = true := h
      simp only [Bool.and_eq_true] at h2
      have := ih h2.2
      simp only [List.length_cons]
      omega

theorem startsB_append_of_le : ∀ (q t z : List Char), q.length ≤ t.length →
    startsB q (t ++ z) = startsB q t := by
  intro q
  induction q with
  | nil => intro t z _; rfl
  | cons a q ih =>
    intro t z h
    cases t with
    | nil => simp at h
    | cons b t =>
      show (a == b && startsB q (t ++ z)) = (a == b && startsB q t)
      rw [ih t z (by simpa using h)]

theorem divergeB_startsB : ∀ (q t z : List Char), divergeB q t = true →
    startsB q (t ++ z) = false := by
  intro q
  induction q with
  | nil => intro t z h; cases t <;> simp [divergeB] at h
  | cons a q ih =>
    intro t z h
    cases t with
    | nil => simp [divergeB] at h
    | cons b t =>
      have hd : (if a == b then divergeB q t else true) = true := h
      show (a == b && startsB q (t ++ z)) = false
      cases hab : (a == b) with
      | true =>
        rw [hab, if_pos rfl] at hd
        rw [Bool.true_and, ih t z hd]
      | false =>
        rw [Bool.false_and]

theorem noTailMatch_contains : ∀ (w q z : List Char), noTailMatch w q = true →
    containsB (w ++ z) q = containsB z q := by
  intro w
  induction w with
  | nil => intro q z _; rfl
  | cons c w ih =>
    intro q z h
    have h2 : (divergeB q (c :: w) && noTailMatch w q) = true := h
    simp only [Bool.and_eq_true] at h2
    have h1 : startsB q (c :: (w ++ z)) = false := divergeB_startsB q (c :: w) z h2.1
    show (startsB q (c :: (w ++ z)) || containsB (w ++ z) q) = containsB z q
    rw [h1, Bool.false_or]
    exact ih q z h2.2

theorem startsB_nl_append : ∀ (q t r : List Char),
    q.all (fun c => !(c == nlChar)) = true →
    startsB q (t ++ nlChar :: r) = startsB q t := by
  intro q
  induction q with
  | nil => intro t r _; rfl
  | cons a q ih =>
    intro t r hq
    simp only [List.all_cons, Bool.and_eq_true, Bool.not_eq_eq_eq_not, Bool.not_true] at hq
    cases t with
    | nil =>
      show (a == nlChar && startsB q r) = false
      rw [hq.1, Bool.false_and]
    | cons b t =>
      show (a == b && startsB q (t ++ nlChar :: r)) = (a == b && startsB q t)
      rw [ih t r (by simpa using hq.2)]

theorem containsB_nil_of_ne : ∀ (q : List Char), q ≠ [] → containsB [] q = false := by
  intro q hq
  cases q with
  | nil => exact absurd rfl hq
  | cons a q => rfl

theorem containsB_nl_append : ∀ (t : List Char) (q r : List Char), q ≠ [] →
    q.all (fun c => !(c == nlChar)) = true →
    containsB (t ++ nlChar :: r) q = (containsB t q || containsB (nlChar :: r) q) := by
  intro t
  induction t with
  | nil =>
    intro q r hne hq
    rw [List.nil_append, containsB_nil_of_ne q hne, Bool.false_or]
  | cons b t ih =>
    intro q r hne hq
    show (startsB q ((b :: t) ++ nlChar :: r) || containsB (t ++ nlChar :: r) q) =
      ((startsB q (b :: t) || containsB t q) || containsB (nlChar :: r) q)
    rw [startsB_nl_append q (b :: t) r hq, ih q r hne hq, Bool.or_assoc]

theorem containsB_append_right : ∀ (x y q : List Char), containsB y q = true →
    containsB (x ++ y) q = true := by
  intro x
  induction x with
  | nil => intro y q h; simpa using h
  | cons c x ih =>
    intro y q h
    show (startsB q (c :: (x ++ y)) || containsB (x ++ y) q) = true
    rw [ih y q h, Bool.or_true]

theorem containsB_of_startsB : ∀ (l q : List Char), startsB q l = true →
    containsB l q = true := by
  intro l q h
  rw [containsB.eq_def, h, Bool.true_or]

theorem containsB_drop : ∀ (l q : List Char) (n : Nat), containsB (l.drop n) q = true →
    containsB l q = true := by
  intro l q n h
  have h2 := containsB_append_right (l.take n) (l.drop n) q h
  rwa [List.take_append_drop] at h2

/-! ## Lemmas about the `sparse=False` substitution -/

theorem pat_ne_nil : spPat ≠ [] := by decide

theorem pat_no_nl : spPat.all (fun c => !(c == nlChar)) = true := by decide

theorem ohePre_no_nl : ohePre.all (fun c => !(c == nlChar)) = true := by decide

theorem noTail_rep_pat : noTailMatch spRep spPat = true := by decide

theorem pat_drop_diverge : ∀ k, k < 12 → 1 ≤ k → divergeB (spPat.drop k) spRep = true := by decide

theorem pat_head_tail : spPat = 's' :: spPat.drop 1 := by decide

theorem dropSuccTail : ∀ (l : List Char) (k : Nat), l.drop (k + 1) = (l.drop k).tail := by
  intro l
  induction l with
  | nil => intro k; simp
  | cons c cs ih =>
    intro k
    cases k with
    | zero => rfl
    | succ n =>
      show cs.drop (n + 1) = (cs.drop n).tail
      exact ih n

theorem replSp_nil : replSp [] = [] := by rw [replSp]

theorem replSp_cons_pos (c : Char) (cs : List Char) (h : startsB spPat (c :: cs) = true) :
    replSp (c :: cs) = spRep ++ replSp (cs.drop 11) := by
  rw [replSp, if_pos h]

theorem replSp_cons_neg (c : Char) (cs : List Char) (h : startsB spPat (c :: cs) = false) :
    replSp (c :: cs) = c :: replSp cs := by
  rw [replSp, if_neg (by simp [h])]

theorem replSp_tail_pull : ∀ (n : Nat) (m : List Char), m.length ≤ n → ∀ (k : Nat), 1 ≤ k →
    startsB (spPat.drop k) (replSp m) = true → startsB (spPat.drop k) m = true := by
  intro n
  induction n with
  | zero =>
    intro m hm k _ h
    have hm0 : m = [] := by
      cases m with
      | nil => rfl
      | cons a b => simp at hm
    subst hm0
    rw [replSp_nil] at h
    cases hd : spPat.drop k with
    | nil => rfl
    | cons a q => rw [hd] at h; exact absurd h (by simp [startsB])
  | succ n ih =>
    intro m hm k hk h
    by_cases hk12 : 12 ≤ k
    · rw [List.drop_eq_nil_of_le (by rw [show spPat.length = 12 from rfl]; exact hk12)]
      rfl
    · push_neg at hk12
      cases m with
      | nil =>
        rw [replSp_nil] at h
        cases hd : spPat.drop k with
        | nil => rfl
        | cons a q => rw [hd] at h; exact absurd h (by simp [startsB])
      | cons c cs =>
        cases hsp : startsB spPat (c :: cs) with
        | true =>
          rw [replSp_cons_pos c cs hsp] at h
          rw [divergeB_startsB (spPat.drop k) spRep (replSp (cs.drop 11))
            (pat_drop_diverge k hk12 hk)] at h
          exact absurd h (by simp)
        | false =>
          rw [replSp_cons_neg c cs hsp] at h
          obtain ⟨a, q, hd⟩ : ∃ a q, spPat.drop k = a :: q := by
            cases hdd : spPat.drop k with
            | nil =>
              exfalso
              have hl := List.length_drop k spPat
              rw [hdd] at hl
              rw [show spPat.length = 12 from rfl] at hl
              simp at hl
              omega
            | cons a q => exact ⟨a, q, rfl⟩
          have hq : q = spPat.drop (k + 1) := by
            rw [dropSuccTail, hd]
            rfl
          rw [hd] at h ⊢
          have h2 : (a == c && startsB q (replSp cs)) = true := h
          simp only [Bool.and_eq_true] at h2
          show (a == c && startsB q cs) = true
          rw [h2.1, Bool.true_and]
          subst hq
          exact ih cs (by simp at hm; omega) (k + 1) (by omega) h2.2

theorem replSp_no_pat_aux : ∀ (n : Nat) (m : List Char), m.length ≤ n →
    containsB (replSp m) spPat = false := by
  intro n
  induction n with
  | zero =>
    intro m hm
    have hm0 : m = [] := by
      cases m with
      | nil => rfl
      | cons a b => simp at hm
    subst hm0
    rw [replSp_nil]
    exact containsB_nil_of_ne spPat pat_ne_nil
  | succ n ih =>
    intro m hm
    cases m with
    | nil =>
      rw [replSp_nil]
      exact containsB_nil_of_ne spPat pat_ne_nil
    | cons c cs =>
      cases hsp : startsB spPat (c :: cs) with
      | true =>
        rw [replSp_cons_pos c cs hsp,
            noTailMatch_contains spRep spPat (replSp (cs.drop 11)) noTail_rep_pat]
        refine ih (cs.drop 11) ?_
        have hl := List.length_drop 11 cs
        simp only [List.length_cons] at hm
        omega
      | false =>
        rw [replSp_cons_neg c cs hsp]
        show (startsB spPat (c :: replSp cs) || containsB (replSp cs) spPat) = false
        rw [ih cs (by simp only [List.length_cons] at hm; omega), Bool.or_false]
        cases hss : startsB spPat (c :: replSp cs) with
        | false => rfl
        | true =>
          exfalso
          rw [pat_head_tail] at hss
          have h2 : (('s' == c) && startsB (spPat.drop 1) (replSp cs)) = true := hss
          simp only [Bool.and_eq_true] at h2
          have h3 := replSp_tail_pull cs.length cs (Nat.le_refl _) 1 (Nat.le_refl 1) h2.2
          have h4 : startsB spPat (c :: cs) = true := by
            rw [pat_head_tail]
            show (('s' == c) && startsB (spPat.drop 1) cs) = true
            rw [h2.1, h3]
            rfl
          rw [h4] at hsp
          exact Bool.noConfusion hsp

theorem replSp_no_pat (m : List Char) : containsB (replSp m) spPat = false :=
  replSp_no_pat_aux m.length m (Nat.le_refl _)

/-! ## Lemmas about the OneHotEncoder regex search -/

theorem scanPat_cons (c : Char) (cs : List Char) :
    scanPat (c :: cs) =
      if startsB spPat (c :: cs) then some ((c :: cs).drop 12)
      else if c == cparen then none
      else scanPat cs := rfl

theorem scanPat_some_contains : ∀ (m r : List Char), scanPat m = some r →
    containsB m spPat = true := by
  intro m
  induction m with
  | nil => intro r h; exact absurd h (by simp [scanPat])
  | cons c cs ih =>
    intro r h
    rw [scanPat_cons] at h
    by_cases hs : startsB spPat (c :: cs) = true
    · exact containsB_of_startsB (c :: cs) spPat hs
    · rw [if_neg hs] at h
      by_cases hc : (c == cparen) = true
      · rw [if_pos hc] at h
        exact absurd h (by simp)
      · rw [if_neg hc] at h
        have h2 := ih r h
        show (startsB spPat (c :: cs) || containsB cs spPat) = true
        rw [h2, Bool.or_true]

theorem scanPat_none_of_not : ∀ (m : List Char), containsB m spPat = false →
    scanPat m = none := by
  intro m
  induction m with
  | nil => intro _; rfl
  | cons c cs ih =>
    intro h
    have h2 : (startsB spPat (c :: cs) || containsB cs spPat) = false := h
    simp only [Bool.or_eq_false_iff] at h2
    rw [scanPat_cons, if_neg (by simp [h2.1])]
    by_cases hc : (c == cparen) = true
    · rw [if_pos hc]
    · rw [if_neg hc]
      exact ih h2.2

theorem hasCloseP_append : ∀ (x y : List Char),
    hasCloseP (x ++ y) = (hasCloseP x || hasCloseP y) := by
  intro x
  induction x with
  | nil => intro y; simp [hasCloseP]
  | cons c cs ih =>
    intro y
    show (c == cparen || hasCloseP (cs ++ y)) = ((c == cparen || hasCloseP cs) || hasCloseP y)
    rw [ih y, Bool.or_assoc]

theorem matchOHE_eq (l : List Char) :
    matchOHE l =
      (startsB ohePre l &&
        match scanPat (l.drop 14) with
        | some r => hasCloseP r
        | none => false) := rfl

theorem searchOHE_cons (c : Char) (cs : List Char) :
    searchOHE (c :: cs) = (matchOHE (c :: cs) || searchOHE cs) := rfl

theorem searchOHE_contains : ∀ (l : List Char), searchOHE l = true →
    containsB l spPat = true := by
  intro l
  induction l with
  | nil => intro h; exact absurd h (by simp [searchOHE])
  | cons c cs ih =>
    intro h
    rw [searchOHE_cons] at h
    simp only [Bool.or_eq_true] at h
    rcases h with h | h
    · rw [matchOHE_eq] at h
      simp only [Bool.and_eq_true] at h
      cases hsc : scanPat ((c :: cs).drop 14) with
      | none => rw [hsc] at h; exact absurd h.2 (by simp)
      | some r =>
        have h3 := scanPat_some_contains ((c :: cs).drop 14) r hsc
        exact containsB_drop (c :: cs) spPat 14 h3
    · have h2 := ih h
      show (startsB spPat (c :: cs) || containsB cs spPat) = true
      rw [h2, Bool.or_true]

theorem scanPat_append_nl (a : List Char)
    (hpa : containsB (nlChar :: a) spPat = false) :
    ∀ (m : List Char), scanPat (m ++ nlChar :: a) =
      (scanPat m).map (fun r => r ++ nlChar :: a) := by
  intro m
  induction m with
  | nil =>
    rw [List.nil_append, scanPat_none_of_not (nlChar :: a) hpa]
    rfl
  | cons c cs ih =>
    have hst : startsB spPat ((c :: cs) ++ nlChar :: a) = startsB spPat (c :: cs) :=
      startsB_nl_append spPat (c :: cs) a pat_no_nl
    have hLHS : scanPat ((c :: cs) ++ nlChar :: a) =
        if startsB spPat ((c :: cs) ++ nlChar :: a) then
          some (((c :: cs) ++ nlChar :: a).drop 12)
        else if c == cparen then none
        else scanPat (cs ++ nlChar :: a) := rfl
    rw [hLHS, hst, scanPat_cons]
    by_cases hs : startsB spPat (c :: cs) = true
    · rw [if_pos hs, if_pos hs]
      have hlen : 12 ≤ (c :: cs).length := by
        have := startsB_length_le hs
        rwa [show spPat.length = 12 from rfl] at this
      rw [List.drop_append_of_le_length hlen]
      rfl
    · rw [if_neg hs, if_neg hs]
      by_cases hc : (c == cparen) = true
      · rw [if_pos hc, if_pos hc]
        rfl
      · rw [if_neg hc, if_neg hc]
        exact ih

theorem matchOHE_append_nl (a : List Char)
    (hpa : containsB (nlChar :: a) spPat = false)
    (hca : hasCloseP (nlChar :: a) = false) :
    ∀ (t : List Char), matchOHE (t ++ nlChar :: a) = matchOHE t := by
  intro t
  rw [matchOHE_eq, matchOHE_eq,
      startsB_nl_append ohePre t a ohePre_no_nl]
  by_cases hsp : startsB ohePre t = true
  · rw [hsp]
    have hlen : 14 ≤ t.length := by
      have := startsB_length_le hsp
      rwa [show ohePre.length = 14 from rfl] at this
    rw [List.drop_append_of_le_length hlen, scanPat_append_nl a hpa (t.drop 14)]
    cases hsc : scanPat (t.drop 14) with
    | none => rfl
    | some r =>
      show hasCloseP (r ++ nlChar :: a) = hasCloseP r
      rw [hasCloseP_append r (nlChar :: a), hca, Bool.or_false]
  · simp only [Bool.not_eq_true] at hsp
    rw [hsp, Bool.false_and, Bool.false_and]

theorem searchOHE_append_nl (a : List Char)
    (hpa : containsB (nlChar :: a) spPat = false)
    (hca : hasCloseP (nlChar :: a) = false)
    (hsa : searchOHE (nlChar :: a) = false) :
    ∀ (s : List Char), searchOHE s = false →
      searchOHE (s ++ nlChar :: a) = false := by
  intro s
  induction s with
  | nil => intro _; exact hsa
  | cons c cs ih =>
    intro h
    rw [searchOHE_cons] at h
    simp only [Bool.or_eq_false_iff] at h
    have e : (c :: cs) ++ nlChar :: a = c :: (cs ++ nlChar :: a) := rfl
    rw [e, searchOHE_cons]
    have hm : matchOHE (c :: (cs ++ nlChar :: a)) = false := by
      have := matchOHE_append_nl a hpa hca (c :: cs)
      rw [e] at this
      rw [this]
      exact h.1
    rw [hm, ih h.2, Bool.or_false]

/-! ## Idempotence of the convention-fixing steps -/

theorem app_facts : ∀ p ∈ varMappings,
    containsB (ensureComment ++ p.2).data spPat = false ∧
    hasCloseP (ensureComment ++ p.2).data = false ∧
    searchOHE (ensureComment ++ p.2).data = false ∧
    containsB (ensureComment ++ p.2).data "cleaned_df".data = true := by decide

theorem appData_head (p : String × String) :
    (ensureComment ++ p.2).data =
      nlChar :: ("\n# Ensure cleaned_df is available for saving\n".data ++ p.2.data) := by
  rw [sdata_append]
  rw [show ensureComment.data =
    nlChar :: "\n# Ensure cleaned_df is available for saving\n".data from by decide]
  rfl

theorem searchOHE_false_of_not_contains (l : List Char)
    (h : containsB l spPat = false) : searchOHE l = false := by
  cases hb : searchOHE l with
  | false => rfl
  | true => rw [searchOHE_contains l hb] at h; exact Bool.noConfusion h

theorem sklearn_fixed_eq (x : String) :
    (sklearnCheck x).fixed_code =
      (if searchOHE x.data = true then String.mk (replSp x.data) else x) := rfl

theorem sklearn_fixed_of_false (x : String) (h : searchOHE x.data = false) :
    (sklearnCheck x).fixed_code = x := by
  rw [sklearn_fixed_eq, h]
  simp

theorem applyCF_eq (x : String) :
    applyConventionFixes x = ensureCleanedDf (sklearnCheck x).fixed_code := rfl

theorem ensure_eq (x : String) :
    ensureCleanedDf x =
      (if containsStr x "cleaned_df" = true then x
       else
         match varMappings.find? (fun p => containsStr x p.1) with
         | some p => x ++ (ensureComment ++ p.2)
         | none => x) := rfl

theorem containsStr_data (a b : String) :
    containsStr a b = containsB a.data b.data := rfl

theorem applyCF_fixpoint (x : String) (hso : searchOHE x.data = false)
    (hens : ensureCleanedDf x = x) : applyConventionFixes x = x := by
  rw [applyCF_eq, sklearn_fixed_of_false x hso, hens]

theorem applyFixes_idem (s : String) :
    applyConventionFixes (applyConventionFixes s) = applyConventionFixes s := by
  have hsoT : searchOHE ((sklearnCheck s).fixed_code).data = false := by
    cases hs : searchOHE s.data with
    | true =>
      have e : (sklearnCheck s).fixed_code = String.mk (replSp s.data) := by
        rw [sklearn_fixed_eq, hs, if_pos rfl]
      rw [e, mkData]
      exact searchOHE_false_of_not_contains _ (replSp_no_pat s.data)
    | false =>
      rw [sklearn_fixed_of_false s hs]
      exact hs
  have hskfix : containsB ((sklearnCheck s).fixed_code).data spPat = false ∨
      ((sklearnCheck s).fixed_code = s ∧ searchOHE s.data = false) := by
    cases hs : searchOHE s.data with
    | true =>
      left
      have e : (sklearnCheck s).fixed_code = String.mk (replSp s.data) := by
        rw [sklearn_fixed_eq, hs, if_pos rfl]
      rw [e, mkData]
      exact replSp_no_pat s.data
    | false =>
      right
      exact ⟨sklearn_fixed_of_false s hs, rfl⟩
  rw [applyCF_eq s]
  by_cases hc : containsStr (sklearnCheck s).fixed_code "cleaned_df" = true
  · rw [ensure_eq, if_pos hc]
    exact applyCF_fixpoint _ hsoT (by rw [ensure_eq, if_pos hc])
  · rw [ensure_eq, if_neg hc]
    cases hfind : varMappings.find? (fun p => containsStr (sklearnCheck s).fixed_code p.1) with
    | none =>
      refine applyCF_fixpoint _ hsoT ?_
      rw [ensure_eq, if_neg hc, hfind]
    | some p =>
      have hp : p ∈ varMappings := List.mem_of_find?_eq_some hfind
      obtain ⟨hApat, hAclose, hAsearch, hAcdf⟩ := app_facts p hp
      have hfd : ((sklearnCheck s).fixed_code ++ (ensureComment ++ p.2)).data =
          ((sklearnCheck s).fixed_code).data ++ (ensureComment ++ p.2).data :=
        sdata_append _ _
      have hcdf2 : containsStr ((sklearnCheck s).fixed_code ++ (ensureComment ++ p.2))
          "cleaned_df" = true := by
        rw [containsStr_data, hfd]
        exact containsB_append_right _ _ _ hAcdf
      refine applyCF_fixpoint _ ?_ ?_
      · rw [hfd, appData_head p]
        rw [appData_head p] at hApat hAclose hAsearch
        rcases hskfix with hnp | ⟨hts, hs0⟩
        · apply searchOHE_false_of_not_contains
          rw [containsB_nl_append ((sklearnCheck s).fixed_code).data spPat _
            pat_ne_nil pat_no_nl, hnp, hApat]
          rfl
        · rw [hts]
          exact searchOHE_append_nl _ hApat hAclose hAsearch s.data hs0
      · rw [ensure_eq, if_pos hcdf2]

/-! ## Shape lemmas for the syntax check and the top-level validator -/

theorem pySyn_cases (parse : String → PyParse) (code : String) :
    (pySynCheck parse code = ⟨true, [], [], code⟩ ∧ parse code = PyParse.ok) ∨
    (pySynCheck parse code =
        ⟨true, [], ["Added missing except block to incomplete try statement"],
          repairTryExcept code⟩ ∧
      parse (repairTryExcept code) = PyParse.ok) ∨
    ((pySynCheck parse code).valid = false ∧
      (pySynCheck parse code).fixed_code = code ∧
      (pySynCheck parse code).issues ≠ []) := by
  cases hp : parse code with
  | ok =>
    left
    refine ⟨?_, rfl⟩
    unfold pySynCheck
    simp [hp]
  | synErr ln msg =>
    cases hm : containsStr msg exceptHint with
    | true =>
      cases hr : parse (repairTryExcept code) with
      | ok =>
        right; left
        refine ⟨?_, rfl⟩
        unfold pySynCheck
        simp [hp, hm, hr]
      | synErr ln2 msg2 =>
        right; right
        have e : pySynCheck parse code =
            ⟨false, ["Syntax Error at line " ++ toString ln ++ ": " ++ msg],
              ["Added missing except block to incomplete try statement"], code⟩ := by
          unfold pySynCheck
          simp [hp, hm, hr]
        rw [e]
        exact ⟨rfl, rfl, by simp⟩
      | exn m =>
        right; right
        have e : pySynCheck parse code =
            ⟨false, ["Syntax Error at line " ++ toString ln ++ ": " ++ msg],
              ["Added missing except block to incomplete try statement"], code⟩ := by
          unfold pySynCheck
          simp [hp, hm, hr]
        rw [e]
        exact ⟨rfl, rfl, by simp⟩
    | false =>
      right; right
      have e : pySynCheck parse code =
          ⟨false, ["Syntax Error at line " ++ toString ln ++ ": " ++ msg], [], code⟩ := by
        unfold pySynCheck
        simp [hp, hm]
      rw [e]
      exact ⟨rfl, rfl, by simp⟩
  | exn m =>
    right; right
    have e : pySynCheck parse code =
        ⟨false, ["Code validation error: " ++ m], [], code⟩ := by
      unfold pySynCheck
      simp [hp]
    rw [e]
    exact ⟨rfl, rfl, by simp⟩

theorem vaf_fixed_eq (parse : String → PyParse) (code : String) :
    (validateAndFix parse code).fixed_code =
      (if (pySynCheck parse code).valid = true
       then applyConventionFixes (pySynCheck parse code).fixed_code
       else (pySynCheck parse code).fixed_code) := by
  by_cases h : (pySynCheck parse code).valid = true
  · rw [if_pos h]
    unfold validateAndFix applyConventionFixes
    rw [if_pos h]
  · rw [if_neg h]
    unfold validateAndFix
    rw [if_neg h]

theorem vaf_invalid_shape (parse : String → PyParse) (code : String)
    (h : (pySynCheck parse code).valid = false) :
    (validateAndFix parse code).valid = (pySynCheck parse code).issues.isEmpty ∧
    (validateAndFix parse code).issues = (pySynCheck parse code).issues ∧
    (validateAndFix parse code).fixed_code = (pySynCheck parse code).fixed_code := by
  unfold validateAndFix
  rw [if_neg (by rw [h]; simp)]
  exact ⟨rfl, rfl, rfl⟩

/-! ## Identity of the CSV-path substitution on literal-free code -/

theorem replCsvGo_id : ∀ (fuel : Nat) (l : List Char), hasCsvGo fuel l = false →
    replCsvGo fuel l = l := by
  intro fuel
  induction fuel with
  | zero => intro l _; rfl
  | succ n ih =>
    intro l h
    cases l with
    | nil => rfl
    | cons c cs =>
      by_cases hq : isQuoteC c = true
      · cases hfs : findQSplit cs with
        | none =>
          have e1 : replCsvGo (n + 1) (c :: cs) = c :: replCsvGo n cs := by
            simp only [replCsvGo, hq, hfs, if_true]
          have e2 : hasCsvGo (n + 1) (c :: cs) = hasCsvGo n cs := by
            simp only [hasCsvGo, hq, hfs, if_true]
          rw [e2] at h
          rw [e1, ih cs h]
        | some t =>
          obtain ⟨mid, q, rest⟩ := t
          by_cases he : endsCsvB mid = true
          · have e2 : hasCsvGo (n + 1) (c :: cs) = true := by
              simp only [hasCsvGo, hq, hfs, he, if_true]
            rw [e2] at h
            exact absurd h (by simp)
          · have e1 : replCsvGo (n + 1) (c :: cs) = c :: replCsvGo n cs := by
              simp only [replCsvGo, hq, hfs, if_true]
              rw [if_neg he]
            have e2 : hasCsvGo (n + 1) (c :: cs) = hasCsvGo n cs := by
              simp only [hasCsvGo, hq, hfs, if_true]
              rw [if_neg he]
            rw [e2] at h
            rw [e1, ih cs h]
      · have e1 : replCsvGo (n + 1) (c :: cs) = c :: replCsvGo n cs := by
          simp only [replCsvGo]
          rw [if_neg hq]
        have e2 : hasCsvGo (n + 1) (c :: cs) = hasCsvGo n cs := by
          simp only [hasCsvGo]
          rw [if_neg hq]
        rw [e2] at h
        rw [e1, ih cs h]

/-! ## Claim theorems -/

/-- C1 (amended): the training harness splices the user code verbatim
between its fixed preamble and epilogue; the preprocessing harness does so
only for code containing no quoted CSV path literal — otherwise
`execute_preprocessing_code` first rewrites every quoted CSV path literal
to `\x27uploaded_data.csv\x27` and splices the rewritten text. -/
theorem c1_harness_amended (code : String) (h : hasCsvLit code = false) :
    assemblePre code = prePreamble ++ code ++ preEpilogue ∧
    assembleTrain code = trainPreamble ++ code ++ trainEpilogue := by
  constructor
  · unfold assemblePre replCsvLits
    rw [replCsvGo_id code.data.length code.data h, dataMk]
  · rfl

/-- C1 witness: a concrete literal-free code string is spliced verbatim
into both harnesses. -/
theorem c1_harness_witness :
    assemblePre plainCode = prePreamble ++ plainCode ++ preEpilogue ∧
    assembleTrain plainCode = trainPreamble ++ plainCode ++ trainEpilogue :=
  c1_harness_amended plainCode (by decide)

set_option maxRecDepth 8000 in
/-- C1 counterexample: the claim "the generated code is inserted verbatim,
with no rewriting before concatenation" is false for the preprocessing
harness — on a code string containing a quoted CSV path the substitution
changes the text, and the assembled harness is not
preamble ++ code ++ epilogue. -/
theorem c1_harness_counterexample :
    replCsvLits csvCode ≠ csvCode ∧
    assemblePre csvCode ≠ prePreamble ++ csvCode ++ preEpilogue := by
  constructor
  · decide
  · decide

/-- C2 (confirmed): whenever the sandbox was created, the input uploaded
and the harness run to completion, `execute_preprocessing_code` returns
`success = true` whatever the captured standard error says, and a missing
output file is recorded as `cleaned_data_exists = false` with no content,
while the result record is still assembled and returned. -/
theorem c2_sandbox_success (code : String) (w : PreWorld)
    (h1 : w.createErr = none) (h2 : w.uploadErr = none) (h3 : w.runErr = none) :
    (executePre code w).success = true ∧
    (executePre code w).stderr = w.runStderr ∧
    (w.readCleaned = none →
      (executePre code w).cleanedExists = false ∧
      (executePre code w).cleanedContent = none) := by
  unfold executePre
  rw [h1, h2, h3]
  refine ⟨rfl, rfl, ?_⟩
  intro h4
  rw [h4]
  exact ⟨rfl, rfl⟩

/-- C2 witness: a concrete completed run whose user code raised and which
produced no output file still yields a successful result record. -/
theorem c2_witness :
    (executePre "raise ValueError(\x27boom\x27)" wNoFile).success = true ∧
    (executePre "raise ValueError(\x27boom\x27)" wNoFile).cleanedExists = false :=
  ⟨(c2_sandbox_success "raise ValueError(\x27boom\x27)" wNoFile rfl rfl rfl).1,
   ((c2_sandbox_success "raise ValueError(\x27boom\x27)" wNoFile rfl rfl rfl).2.2 rfl).1⟩

/-- C3 (amended): for a completed sandbox call the endpoint assigns exactly
one of the three statuses: `success` exactly when the exists flag is set
AND the extracted content is a non-empty string; `failed_with_errors` when
that artifact test fails and stderr carries a recognized marker;
`partial_success` (modelled as `noArtifact`) otherwise; an uncompleted
call is classified `failed`. -/
theorem c3_classification_amended (r : PreResult) :
    (r.success = false → classifyPre r = RunStatus.failed) ∧
    (r.success = true →
      (artifactStored r = true → classifyPre r = RunStatus.success) ∧
      (artifactStored r = false → hasErrMarker r.stderr = true →
        classifyPre r = RunStatus.withErrors) ∧
      (artifactStored r = false → hasErrMarker r.stderr = false →
        classifyPre r = RunStatus.noArtifact)) := by
  unfold classifyPre
  constructor
  · intro h
    rw [h]
    simp
  · intro h
    rw [h]
    simp only [if_true]
    refine ⟨?_, ?_, ?_⟩
    · intro ha
      rw [ha]
      simp
    · intro ha hm
      rw [ha, hm]
      simp
    · intro ha hm
      rw [ha, hm]
      simp

/-- C3 witness: a completed run with a non-empty artifact is classified
`success`. -/
theorem c3_witness :
    classifyPre (executePre "cleaned_df = df" wGood) = RunStatus.success :=
  ((c3_classification_amended (executePre "cleaned_df = df" wGood)).2 rfl).1 (by decide)

/-- C3 counterexample: the claim as stated says a completed call with the
primary artifact present is classified `success`; but when the artifact
file exists and is empty (exists flag true, content recorded as none) and
stderr carries an error marker, the endpoint classifies the run as
`failed_with_errors`. -/
theorem c3_counterexample :
    (executePre "x" wEmptyArtifact).success = true ∧
    (executePre "x" wEmptyArtifact).cleanedExists = true ∧
    classifyPre (executePre "x" wEmptyArtifact) = RunStatus.withErrors := by
  decide

/-- C9 (confirmed): a transport-level failure of either executor yields a
result with `success = false` and no payload: for preprocessing the exists
flag is false and the content empty, for training the model-file list,
parsed results and results file are all empty. -/
theorem c9_failure_no_payload :
    (∀ (code : String) (w : PreWorld), (executePre code w).success = false →
      (executePre code w).cleanedExists = false ∧
      (executePre code w).cleanedContent = none) ∧
    (∀ (code : String) (w : TrainWorld), (executeTrain code w).success = false →
      (executeTrain code w).modelFiles = [] ∧
      (executeTrain code w).resultsFile = none ∧
      (executeTrain code w).parsedResults = []) := by
  constructor
  · intro code w h
    unfold executePre at h ⊢
    cases h1 : w.createErr with
    | some m => exact ⟨rfl, rfl⟩
    | none =>
      rw [h1] at h
      cases h2 : w.uploadErr with
      | some m => exact ⟨rfl, rfl⟩
      | none =>
        rw [h2] at h
        cases h3 : w.runErr with
        | some m => exact ⟨rfl, rfl⟩
        | none =>
          rw [h3] at h
          simp at h
  · intro code w h
    unfold executeTrain at h ⊢
    cases h1 : w.createErr with
    | some m => exact ⟨rfl, rfl, rfl⟩
    | none =>
      rw [h1] at h
      cases h2 : w.uploadErr with
      | some m => exact ⟨rfl, rfl, rfl⟩
      | none =>
        rw [h2] at h
        cases h3 : w.installErr with
        | some m => exact ⟨rfl, rfl, rfl⟩
        | none =>
          rw [h3] at h
          cases h4 : w.runErr with
          | some m => exact ⟨rfl, rfl, rfl⟩
          | none =>
            rw [h4] at h
            simp at h

/-- C9 witness: concrete sandbox-creation failures produce payload-free
failure records in both executors. -/
theorem c9_witness :
    ((executePre "x" wCreateFail).cleanedExists = false ∧
     (executePre "x" wCreateFail).cleanedContent = none) ∧
    ((executeTrain "x" twCreateFail).modelFiles = [] ∧
     (executeTrain "x" twCreateFail).resultsFile = none ∧
     (executeTrain "x" twCreateFail).parsedResults = []) :=
  ⟨c9_failure_no_payload.1 "x" wCreateFail rfl,
   c9_failure_no_payload.2 "x" twCreateFail rfl⟩

/-- C4 (confirmed): the syntax-repair step keeps the repaired text only if
it parses after the repair — a changed result always parses — and when the
attempted repair does not yield parseable text the returned fixed code is
the original input unchanged. -/
theorem c4_repair_conservative (parse : String → PyParse) (code : String) :
    ((pySynCheck parse code).fixed_code ≠ code →
      parse ((pySynCheck parse code).fixed_code) = PyParse.ok) ∧
    (parse (repairTryExcept code) ≠ PyParse.ok →
      (pySynCheck parse code).fixed_code = code) := by
  rcases pySyn_cases parse code with ⟨e, hp⟩ | ⟨e, hr⟩ | ⟨_, hf, _⟩
  · rw [e]
    exact ⟨fun h => absurd rfl h, fun _ => rfl⟩
  · rw [e]
    exact ⟨fun _ => hr, fun hn => absurd hr hn⟩
  · rw [hf]
    exact ⟨fun h => absurd rfl h, fun _ => rfl⟩

/-- C4 witness: on a concrete repairable input the changed result parses;
on a concrete unrepairable input the original code is returned. -/
theorem c4_witness :
    repairableP ((pySynCheck repairableP brokenTry).fixed_code) = PyParse.ok ∧
    (pySynCheck alwaysBadP "def f(:").fixed_code = "def f(:" :=
  ⟨(c4_repair_conservative repairableP brokenTry).1 (by decide),
   (c4_repair_conservative alwaysBadP "def f(:").2 (by decide)⟩

/-- C5 (amended): on syntactically valid input the returned fixed code is
the input after the fixed substitution list, possibly followed by one
appended `cleaned_df` aliasing block taken from the fixed variable table —
the aliasing block is synthesized code, so the original claim that missing
elements are never synthesized fails. -/
theorem c5_validfix_amended (parse : String → PyParse) (code : String)
    (h : parse code = PyParse.ok) :
    (validateAndFix parse code).fixed_code = (sklearnCheck code).fixed_code ∨
    ∃ p ∈ varMappings,
      (validateAndFix parse code).fixed_code =
        (sklearnCheck code).fixed_code ++ (ensureComment ++ p.2) := by
  have e : pySynCheck parse code = ⟨true, [], [], code⟩ := by
    unfold pySynCheck
    simp [h]
  rw [vaf_fixed_eq, e]
  rw [show (⟨true, [], [], code⟩ : CheckResult).valid = true from rfl,
      show (⟨true, [], [], code⟩ : CheckResult).fixed_code = code from rfl]
  rw [if_pos rfl]
  rw [applyCF_eq code, ensure_eq]
  by_cases hc : containsStr (sklearnCheck code).fixed_code "cleaned_df" = true
  · rw [if_pos hc]
    left
    rfl
  · rw [if_neg hc]
    cases hfind : varMappings.find?
        (fun p => containsStr (sklearnCheck code).fixed_code p.1) with
    | none =>
      left
      rfl
    | some p =>
      right
      exact ⟨p, List.mem_of_find?_eq_some hfind, rfl⟩

/-- C5 witness: concrete already-clean code passes through the validator
in substitution-or-alias shape. -/
theorem c5_witness :
    (validateAndFix okP cleanCode).fixed_code = (sklearnCheck cleanCode).fixed_code ∨
    ∃ p ∈ varMappings,
      (validateAndFix okP cleanCode).fixed_code =
        (sklearnCheck cleanCode).fixed_code ++ (ensureComment ++ p.2) :=
  c5_validfix_amended okP cleanCode rfl

/-- C5 counterexample: the claim as stated is false — on the syntactically
valid input `x = cleaned_data`, which the substitution list leaves
unchanged, the validator returns a longer fixed code with a synthesized
`cleaned_df = cleaned_data` aliasing assignment appended. -/
theorem c5_counterexample :
    okP aliasCode = PyParse.ok ∧
    (sklearnCheck aliasCode).fixed_code = aliasCode ∧
    (validateAndFix okP aliasCode).fixed_code ≠ aliasCode := by
  decide

/-- C6 (confirmed): the validator is a total function; on input whose
parse fails with an unrepairable syntax error (message without the
handled hint, or a repair that still does not parse) it returns
`valid = false`, a non-empty issue list, and the original code. -/
theorem c6_never_throws (parse : String → PyParse) (code : String)
    (ln : Nat) (msg : String)
    (hsyn : parse code = PyParse.synErr ln msg)
    (hnr : containsStr msg exceptHint = false ∨
      parse (repairTryExcept code) ≠ PyParse.ok) :
    (validateAndFix parse code).valid = false ∧
    (validateAndFix parse code).issues ≠ [] ∧
    (validateAndFix parse code).fixed_code = code := by
  have conclude : ∀ fx : List String, pySynCheck parse code =
      ⟨false, ["Syntax Error at line " ++ toString ln ++ ": " ++ msg], fx, code⟩ →
      (validateAndFix parse code).valid = false ∧
      (validateAndFix parse code).issues ≠ [] ∧
      (validateAndFix parse code).fixed_code = code := by
    intro fx e
    have hv : (pySynCheck parse code).valid = false := by rw [e]
    obtain ⟨w1, w2, w3⟩ := vaf_invalid_shape parse code hv
    refine ⟨?_, ?_, ?_⟩
    · rw [w1, e]
      rfl
    · rw [w2, e]
      simp
    · rw [w3, e]
  cases hm : containsStr msg exceptHint with
  | false =>
    refine conclude [] ?_
    unfold pySynCheck
    simp [hsyn, hm]
  | true =>
    have hok : parse (repairTryExcept code) ≠ PyParse.ok := by
      rcases hnr with hmf | hok
      · rw [hm] at hmf
        exact absurd hmf (by simp)
      · exact hok
    cases hr : parse (repairTryExcept code) with
    | ok => exact absurd hr hok
    | synErr l2 m2 =>
      refine conclude ["Added missing except block to incomplete try statement"] ?_
      unfold pySynCheck
      simp [hsyn, hm, hr]
    | exn m2 =>
      refine conclude ["Added missing except block to incomplete try statement"] ?_
      unfold pySynCheck
      simp [hsyn, hm, hr]

/-- C6 witness: a concrete unparseable, unrepairable input yields
`valid = false`, a non-empty issue list and the unchanged code. -/
theorem c6_witness :
    (validateAndFix alwaysBadP "def f(:").valid = false ∧
    (validateAndFix alwaysBadP "def f(:").issues ≠ [] ∧
    (validateAndFix alwaysBadP "def f(:").fixed_code = "def f(:" :=
  c6_never_throws alwaysBadP "def f(:" 1 "invalid syntax" rfl (Or.inl (by decide))

/-- C7 (confirmed): both blob-store access operations reject — returning
the raised error with an empty filesystem-operation log — every key
containing `..`, every key starting with `/`, and every key not starting
with an allowed namespace prefix. -/
theorem c7_key_validation (fs : StoreFs) (key : String)
    (h : containsStr key ".." = true ∨ strStarts key "/" = true ∨
      (strStarts key "uploads/" = false ∧ strStarts key "processed/" = false)) :
    ((downloadFile fs key).2 = [] ∧
      (∃ e, (downloadFile fs key).1 = Except.error e)) ∧
    ((deleteFile fs key).2 = [] ∧
      (∃ e, (deleteFile fs key).1 = Except.error e)) := by
  unfold downloadFile deleteFile
  by_cases h1 : (sEmpty key || containsStr key ".." || strStarts key "/") = true
  · rw [if_pos h1, if_pos h1]
    exact ⟨⟨rfl, ⟨_, rfl⟩⟩, ⟨rfl, ⟨_, rfl⟩⟩⟩
  · rw [if_neg h1, if_neg h1]
    have h2 : (!strStarts key "uploads/" && !strStarts key "processed/") = true := by
      rcases h with hc | hs | ⟨hu, hp⟩
      · exact absurd (by rw [hc]; simp) h1
      · exact absurd (by rw [hs]; simp) h1
      · rw [hu, hp]
        rfl
    rw [if_pos h2, if_pos h2]
    exact ⟨⟨rfl, ⟨_, rfl⟩⟩, ⟨rfl, ⟨_, rfl⟩⟩⟩

/-- C7 witness: a concrete traversal key is rejected by both operations
before any filesystem operation. -/
theorem c7_witness :
    ((downloadFile fsAny "uploads/../secrets").2 = [] ∧
      (∃ e, (downloadFile fsAny "uploads/../secrets").1 = Except.error e)) ∧
    ((deleteFile fsAny "uploads/../secrets").2 = [] ∧
      (∃ e, (deleteFile fsAny "uploads/../secrets").1 = Except.error e)) :=
  c7_key_validation fsAny "uploads/../secrets" (Or.inl (by decide))

/-- C8 (confirmed): `validate_and_fix_code` is idempotent on its fixed
code, for every parser oracle under which the convention-fixing steps
preserve parseability (as the Python parser does): running the validator
on its own output returns that output unchanged. -/
theorem c8_idempotent (parse : String → PyParse)
    (H : ∀ s, parse s = PyParse.ok → parse (applyConventionFixes s) = PyParse.ok)
    (code : String) :
    (validateAndFix parse (validateAndFix parse code).fixed_code).fixed_code =
      (validateAndFix parse code).fixed_code := by
  by_cases hv : (pySynCheck parse code).valid = true
  · have hok : parse ((pySynCheck parse code).fixed_code) = PyParse.ok := by
      rcases pySyn_cases parse code with ⟨e, hp⟩ | ⟨e, hr⟩ | ⟨hvf, _, _⟩
      · rw [e]
        exact hp
      · rw [e]
        exact hr
      · rw [hvf] at hv
        exact absurd hv (by simp)
    have hf1 : (validateAndFix parse code).fixed_code =
        applyConventionFixes ((pySynCheck parse code).fixed_code) := by
      rw [vaf_fixed_eq, if_pos hv]
    have hok2 : parse ((validateAndFix parse code).fixed_code) = PyParse.ok := by
      rw [hf1]
      exact H _ hok
    have e2 : pySynCheck parse ((validateAndFix parse code).fixed_code) =
        ⟨true, [], [], (validateAndFix parse code).fixed_code⟩ := by
      unfold pySynCheck
      simp [hok2]
    rw [vaf_fixed_eq parse ((validateAndFix parse code).fixed_code), e2]
    rw [show (⟨true, [], [], (validateAndFix parse code).fixed_code⟩ :
      CheckResult).valid = true from rfl]
    rw [if_pos rfl]
    rw [show (⟨true, [], [], (validateAndFix parse code).fixed_code⟩ :
      CheckResult).fixed_code = (validateAndFix parse code).fixed_code from rfl]
    rw [hf1]
    exact applyFixes_idem ((pySynCheck parse code).fixed_code)
  · have hfc : (validateAndFix parse code).fixed_code = code := by
      rw [vaf_fixed_eq, if_neg hv]
      rcases pySyn_cases parse code with ⟨e, _⟩ | ⟨e, _⟩ | ⟨_, hf, _⟩
      · rw [e] at hv
        exact absurd rfl hv
      · rw [e] at hv
        exact absurd rfl hv
      · exact hf
    rw [hfc]
    exact hfc

/-- C8 witness: idempotence instantiated at a concrete oracle and input. -/
theorem c8_witness :
    (validateAndFix okP (validateAndFix okP "x = 1").fixed_code).fixed_code =
      (validateAndFix okP "x = 1").fixed_code :=
  c8_idempotent okP (fun _ _ => rfl) "x = 1"

/-- C10 (confirmed): when a requested valid key is absent from disk but
some file in the uploads listing ends with the original-filename suffix of
the key (the part after the timestamp and unique-id segments),
`download_file` silently returns that other file's path instead of
raising not-found. -/
theorem c10_similar_file_fallback (fs : StoreFs) (key f : String)
    (hne : sEmpty key = false)
    (hdot : containsStr key ".." = false)
    (hsl : strStarts key "/" = false)
    (hup : strStarts key "uploads/" = true)
    (hmiss : fs.pathExists (storageRoot ++ "/" ++ key) = false)
    (hdir : fs.uploadsDirExists = true)
    (hu : containsStr (baseName key) "_" = true)
    (hlen : ((splitCh '_' (baseName key).data).map String.mk).length ≥ 4)
    (hfind : fs.uploadsListing.find?
      (fun g => strEnds g
        (String.mk (joinCh '_' ((splitCh '_' (baseName key).data).drop 3)))) = some f) :
    (downloadFile fs key).1 = Except.ok (storageRoot ++ "/uploads/" ++ f) := by
  unfold downloadFile
  rw [hne, hdot, hsl]
  rw [if_neg (by simp)]
  rw [hup]
  rw [if_neg (by simp)]
  simp only [hmiss, hdir, hu, hfind, Bool.false_eq_true, if_false, if_true, List.length_map]
  have hlen2 : 4 ≤ (splitCh '_' (baseName key).data).length := by simpa using hlen
  rw [if_pos hlen2]
  have e3 : storageRoot ++ "/uploads" ++ "/" = storageRoot ++ "/uploads/" := by decide
  rw [e3]

/-- C10 witness: a concrete missing key resolves to a different upload
ending in the same original filename. -/
theorem c10_witness :
    (downloadFile fsSimilar missingKey).1 =
      Except.ok "storage/uploads/20250915_045048_zzzz9999_churn.csv" :=
  c10_similar_file_fallback fsSimilar missingKey
    "20250915_045048_zzzz9999_churn.csv"
    (by decide) (by decide) (by decide) (by decide) rfl rfl
    (by decide) (by decide) (by decide)
